import Mathlib

/-!
Shallow embedding of the mioco coroutine/reactor coupling (src/src/lib.rs).

The embedding models the pieces the verified claims are about:
the four-variant coroutine `State` and its `to_interest_for` interest
derivation, the per-connection I/O cell (`IOCell`, the Rust struct `IO`),
the reactor registration state the event loop holds for the cell's token,
and the external/internal handle operations (`readable`, `writable`,
`is_finished`, `read`, `write`, `flush`) together with the builder
(`new`, `wrap_io`, `start`).

Rust panics (`expect`, `unwrap`, the `panic!` in `to_interest_for`) are
modelled by the `Res.panic` constructor, carrying the shared state as it
is at the moment of the panic.  Resuming the coroutine is modelled by a
parameter `resume : State → ResumeOutcome`: the function receives the
coroutine state at the instant `resume()` is invoked (what the resumed
body would observe) and reports either the state the body leaves behind
when it next suspends or returns, or a resume failure.
-/

/-- Reactor token (mio::Token), an opaque identifier. -/
structure Token where
  val : Nat
deriving DecidableEq

/-- Interest mask, a subset of \x7breadable, writable, hup\x7d (mio::Interest). -/
structure Interest where
  rd : Bool
  wr : Bool
  hp : Bool
deriving DecidableEq

/-- mio::Interest::readable() -/
def Interest.readable : Interest := ⟨true, false, false⟩

/-- mio::Interest::writable() -/
def Interest.writable : Interest := ⟨false, true, false⟩

/-- mio::Interest::hup() -/
def Interest.hup : Interest := ⟨false, false, true⟩

/-- mio::Interest::none() -/
def Interest.none : Interest := ⟨false, false, false⟩

/-- Bitwise union of interest masks (the | operator on mio::Interest). -/
def Interest.or (a b : Interest) : Interest :=
  ⟨a.rd || b.rd, a.wr || b.wr, a.hp || b.hp⟩

/-- State of a mioco coroutine (enum State in lib.rs). -/
inductive State where
  | BlockedOnWrite (t : Token)
  | BlockedOnRead (t : Token)
  | Running
  | Finished
deriving DecidableEq

/-- State::to_interest_for: the mio interest for a given token at the
current state.  The Rust function panics on `Running` ("wrong state");
the panic is modelled as `Option.none`. -/
def State.to_interest_for (s : State) (token : Token) : Option Interest :=
  match s with
  | State.Running => Option.none
  | State.BlockedOnRead blocked_token =>
      some (if token = blocked_token then Interest.readable else Interest.none)
  | State.BlockedOnWrite blocked_token =>
      some (if token = blocked_token then Interest.writable else Interest.none)
  | State.Finished => some Interest.hup

/-- The Coroutine record (struct Coroutine in lib.rs): the coroutine
state together with the nullable handle to the coroutine context
(`coroutine : Option<Handle>`); the embedding tracks only whether the
handle has been recorded. -/
structure Coroutine where
  state : State
  coroutine : Bool
deriving DecidableEq

/-- Registration the reactor (mio event loop) holds for the cell's
transport: whether it is registered and under which interest mask. -/
structure Reactor where
  registered : Bool
  mask : Interest
deriving DecidableEq

/-- The per-connection I/O cell (struct IO in lib.rs), minus the shared
coroutine reference, which the embedding threads separately. -/
structure IOCell where
  token : Token
  interest : Interest
  peer_hup : Bool
deriving DecidableEq

/-- Outcome of an operation that may panic (Rust `expect`/`unwrap`);
`panic` carries the shared state as of the panic. -/
inductive Res (α : Type) where
  | ok (a : α)
  | panic (a : α)
deriving DecidableEq

/-- IO::reregister: recompute `self.interest` from the coroutine state
and communicate it to the event loop with edge|oneshot.  A `Running`
state makes `to_interest_for` panic before `interest` is written;
a reregister of an unregistered transport fails and the `expect`
panics after `interest` was already updated. -/
def IOCell.reregister (co : State) (c : IOCell) (r : Reactor) (token : Token) :
    Res (IOCell × Reactor) :=
  match co.to_interest_for token with
  | Option.none => Res.panic (c, r)
  | some i =>
      if r.registered then
        Res.ok ({c with interest := i}, {r with mask := i})
      else
        Res.panic ({c with interest := i}, r)

/-- IO::hup: if the current interest is exactly hup, clear the interest
and deregister the transport; otherwise set `peer_hup` and reregister. -/
def IOCell.hup (co : State) (c : IOCell) (r : Reactor) (token : Token) :
    Res (IOCell × Reactor) :=
  if c.interest = Interest.hup then
    if r.registered then
      Res.ok ({c with interest := Interest.none}, {r with registered := false})
    else
      Res.panic ({c with interest := Interest.none}, r)
  else
    IOCell.reregister co {c with peer_hup := true} r token

/-- The shared state an external handle touches: the coroutine record,
its I/O cell and the reactor registration for the cell's token. -/
structure Sys where
  coroutine : Coroutine
  cell : IOCell
  reactor : Reactor
deriving DecidableEq

/-- IO::reregister lifted to the full state. -/
def Sys.reregister (s : Sys) (token : Token) : Res Sys :=
  match IOCell.reregister s.coroutine.state s.cell s.reactor token with
  | Res.ok (c, r) => Res.ok {s with cell := c, reactor := r}
  | Res.panic (c, r) => Res.panic {s with cell := c, reactor := r}

/-- IO::hup lifted to the full state. -/
def Sys.hup (s : Sys) (token : Token) : Res Sys :=
  match IOCell.hup s.coroutine.state s.cell s.reactor token with
  | Res.ok (c, r) => Res.ok {s with cell := c, reactor := r}
  | Res.panic (c, r) => Res.panic {s with cell := c, reactor := r}

/-- What resuming the coroutine does: it either yields control back
having left the shared coroutine state at `s` (the body suspended in an
internal handle, or returned, in which case the entry procedure stored
`Finished`), or the resume call fails. -/
inductive ResumeOutcome where
  | ok (s : State)
  | fail
deriving DecidableEq

/-- ExternalHandle::readable.  `resume` receives the coroutine state at
the instant resume() is invoked — the state the resumed body observes. -/
def ExternalHandle.readable (sys : Sys) (token : Token) (hintHup : Bool)
    (resume : State → ResumeOutcome) : Res Sys :=
  if hintHup then
    Sys.hup sys token
  else
    match sys.coroutine.state with
    | State.BlockedOnRead blocked_token =>
        if token = blocked_token then
          if sys.coroutine.coroutine then
            let sys1 : Sys :=
              {sys with coroutine := {sys.coroutine with state := State.Running}}
            match resume sys1.coroutine.state with
            | ResumeOutcome.fail => Res.panic sys1
            | ResumeOutcome.ok s =>
                Sys.reregister
                  {sys1 with coroutine := {sys1.coroutine with state := s}} token
          else
            Res.panic sys
        else
          Sys.reregister sys token
    | State.BlockedOnWrite blocked_token =>
        if token = blocked_token then Sys.reregister sys token else Res.ok sys
    | _ => Res.ok sys

/-- ExternalHandle::writable. -/
def ExternalHandle.writable (sys : Sys) (token : Token)
    (resume : State → ResumeOutcome) : Res Sys :=
  match sys.coroutine.state with
  | State.BlockedOnWrite blocked_token =>
      if token = blocked_token then
        if sys.coroutine.coroutine then
          let sys1 : Sys :=
            {sys with coroutine := {sys.coroutine with state := State.Running}}
          match resume sys1.coroutine.state with
          | ResumeOutcome.fail => Res.panic sys1
          | ResumeOutcome.ok s =>
              Sys.reregister
                {sys1 with coroutine := {sys1.coroutine with state := s}} token
        else
          Res.panic sys
      else Res.ok sys
  | State.BlockedOnRead blocked_token =>
      if token = blocked_token then Sys.reregister sys token else Res.ok sys
  | _ => Res.ok sys

/-- ExternalHandle::is_finished: the coroutine has Finished and the
cell's interest has fallen to none. -/
def ExternalHandle.is_finished (s : Sys) : Bool :=
  decide (s.coroutine.state = State.Finished ∧ s.cell.interest = Interest.none)

/-- One outcome of a non-blocking transport attempt:
Ok(None) would-block, Ok(Some(n)) a byte count, Err(e) an error. -/
inductive TryRes where
  | wouldBlock
  | bytes (n : Nat)
  | ioErr (e : Nat)
deriving DecidableEq

/-- InternalHandle read (the std::io::Read impl): loop over non-blocking
try_read attempts; on would-block set the coroutine state to
BlockedOnRead(self.token) and suspend, retrying from the top on resume;
on a byte count or an error return it.  The transport is modelled as the
list of attempt outcomes; the result pairs the returned value (none if
the modelled attempts run out while still looping) with the coroutine
state recorded at each suspension, in order. -/
def InternalHandle.read (c : IOCell) :
    List TryRes → Option (Except Nat Nat) × List State
  | [] => (Option.none, [])
  | TryRes.wouldBlock :: rest =>
      let p := InternalHandle.read c rest
      (p.1, State.BlockedOnRead c.token :: p.2)
  | TryRes.bytes n :: _ => (some (Except.ok n), [])
  | TryRes.ioErr e :: _ => (some (Except.error e), [])

/-- InternalHandle write (the std::io::Write impl): identical loop with
try_write and BlockedOnWrite(self.token). -/
def InternalHandle.write (c : IOCell) :
    List TryRes → Option (Except Nat Nat) × List State
  | [] => (Option.none, [])
  | TryRes.wouldBlock :: rest =>
      let p := InternalHandle.write c rest
      (p.1, State.BlockedOnWrite c.token :: p.2)
  | TryRes.bytes n :: _ => (some (Except.ok n), [])
  | TryRes.ioErr e :: _ => (some (Except.error e), [])

/-- InternalHandle flush: unconditionally Ok(()). -/
def InternalHandle.flush : Except Nat Unit := Except.ok ()

/-- What the coroutine body does when first run: it either suspends
inside an internal handle having set the coroutine state to `s`, or it
runs to completion and returns. -/
inductive BodyStep where
  | yields (s : State)
  | returns
deriving DecidableEq

/-- Builder (struct Builder in lib.rs): the coroutine record under
construction and the internal handles accumulated by wrap_io, identified
by their tokens. -/
structure Builder where
  coroutine : Coroutine
  handles : List Token
deriving DecidableEq

/-- Builder::new: a Running record with no context handle and no handles. -/
def Builder.new : Builder :=
  {coroutine := {state := State.Running, coroutine := false}, handles := []}

/-- Builder::wrap_io: register the transport for readable|writable with
edge|oneshot, create the cell with empty interest and clear peer_hup,
and retain a paired internal handle.  Returns the updated builder, the
new cell, and the reactor registration made for it. -/
def Builder.wrap_io (b : Builder) (token : Token) : Builder × IOCell × Reactor :=
  ({b with handles := b.handles ++ [token]},
   {token := token, interest := Interest.none, peer_hup := false},
   {registered := true, mask := Interest.or Interest.readable Interest.writable})

/-- The entry procedure of the coroutine spawned by Builder::start:
record the context handle into the coroutine record, invoke the body
with the accumulated handles, and on return of the body set Finished. -/
def coroutineEntry (f : List Token → BodyStep) (handles : List Token)
    (co : Coroutine) : Coroutine :=
  let co1 : Coroutine := {co with coroutine := true}
  match f handles with
  | BodyStep.yields s => {co1 with state := s}
  | BodyStep.returns => {co1 with state := State.Finished}

/-- Builder::start: spawn the coroutine with the entry procedure above
and immediately resume it, so it runs until its first suspension or
until completion; the result is the coroutine record at that point. -/
def Builder.start (b : Builder) (f : List Token → BodyStep) : Coroutine :=
  coroutineEntry f b.handles b.coroutine

/-- One event-loop dispatch to an external handle. -/
inductive Op where
  | readable (token : Token) (hintHup : Bool) (resume : State → ResumeOutcome)
  | writable (token : Token) (resume : State → ResumeOutcome)

/-- Run one dispatched event. -/
def runOp (op : Op) (s : Sys) : Res Sys :=
  match op with
  | Op.readable t h f => ExternalHandle.readable s t h f
  | Op.writable t f => ExternalHandle.writable s t f

/-- Run a sequence of dispatched events, stopping at a panic. -/
def runOps : List Op → Sys → Res Sys
  | [], s => Res.ok s
  | op :: ops, s =>
      match runOp op s with
      | Res.ok s1 => runOps ops s1
      | Res.panic s1 => Res.panic s1

/-- The interest-mask invariant for a token (P1 of the specification):
either the transport is registered, the cell's cached interest agrees
with the mask the reactor holds, and that mask is the one derived from
the current coroutine state; or the coroutine has Finished, the hup was
processed (transport deregistered) and the cell's interest is none. -/
def interestInv (s : Sys) (token : Token) : Prop :=
  (s.reactor.registered = true ∧ s.cell.interest = s.reactor.mask ∧
    some s.reactor.mask = s.coroutine.state.to_interest_for token)
  ∨ (s.coroutine.state = State.Finished ∧ s.reactor.registered = false ∧
    s.cell.interest = Interest.none)

instance (s : Sys) (token : Token) : Decidable (interestInv s token) := by
  unfold interestInv
  infer_instance

def invWitSys : Sys :=
  {coroutine := {state := State.BlockedOnRead ⟨0⟩, coroutine := true},
   cell := {token := ⟨0⟩, interest := Interest.readable, peer_hup := false},
   reactor := {registered := true, mask := Interest.readable}}

def invWitResume : State → ResumeOutcome :=
  fun _ => ResumeOutcome.ok (State.BlockedOnRead ⟨0⟩)

/-- A coroutine owning two cells, blocked on write on token 1, while the
cell with token 0 still carries its initial readable|writable reactor
registration. -/
def crossSys : Sys :=
  {coroutine := {state := State.BlockedOnWrite ⟨1⟩, coroutine := true},
   cell := {token := ⟨0⟩, interest := Interest.none, peer_hup := false},
   reactor := {registered := true,
               mask := Interest.or Interest.readable Interest.writable}}

def hupWitCell : IOCell := {token := ⟨3⟩, interest := Interest.writable, peer_hup := false}

def hupWitReactor : Reactor := {registered := true, mask := Interest.writable}

def obsWitResume : State → ResumeOutcome :=
  fun st =>
    match st with
    | State.Running => ResumeOutcome.ok State.Finished
    | _ => ResumeOutcome.fail

def startWitBuilder : Builder :=
  (Builder.wrap_io (Builder.wrap_io Builder.new ⟨0⟩).1 ⟨1⟩).1

def failSys : Sys :=
  {coroutine := {state := State.BlockedOnRead ⟨0⟩, coroutine := true},
   cell := {token := ⟨0⟩, interest := Interest.readable, peer_hup := false},
   reactor := {registered := true, mask := Interest.readable}}

def doneSys : Sys :=
  {coroutine := {state := State.Finished, coroutine := true},
   cell := {token := ⟨0⟩, interest := Interest.none, peer_hup := true},
   reactor := {registered := false, mask := Interest.none}}

/-- A coroutine whose body finished without ever yielding: wrap_io left
the cell's interest at none while the reactor still holds the initial
readable|writable registration. -/
def earlyFinishSys : Sys :=
  {coroutine := {state := State.Finished, coroutine := true},
   cell := {token := ⟨0⟩, interest := Interest.none, peer_hup := false},
   reactor := {registered := true,
               mask := Interest.or Interest.readable Interest.writable}}

/-- Overwrite the cell's peer_hup flag. -/
def IOCell.setPH (b : Bool) (c : IOCell) : IOCell := {c with peer_hup := b}

/-- Overwrite peer_hup in the full state. -/
def Sys.setPH (b : Bool) (s : Sys) : Sys := {s with cell := IOCell.setPH b s.cell}

/-- Quotient an operation result by the peer_hup flag. -/
def Res.erasePH : Res Sys → Res Sys
  | Res.ok s => Res.ok {s with cell := {s.cell with peer_hup := false}}
  | Res.panic s => Res.panic {s with cell := {s.cell with peer_hup := false}}

/-- Claim C2: the pure map from (State, Token) to an interest mask sends
BlockedOnRead(b) at t to readable exactly when t = b and to the empty
mask otherwise; BlockedOnWrite(b) at t to writable exactly when t = b and
to the empty mask otherwise; Finished to hup at every t; and has no
defined result for Running (the implementation panics, modelled as
Option.none). -/
theorem to_interest_for_spec (t b : Token) :
    State.to_interest_for (State.BlockedOnRead b) t
        = some (if t = b then Interest.readable else Interest.none)
    ∧ State.to_interest_for (State.BlockedOnWrite b) t
        = some (if t = b then Interest.writable else Interest.none)
    ∧ State.to_interest_for State.Finished t = some Interest.hup
    ∧ State.to_interest_for State.Running t = Option.none := by
  refine ⟨rfl, rfl, rfl, rfl⟩

theorem to_interest_hup_finished (s : State) (t : Token)
    (h : s.to_interest_for t = some Interest.hup) : s = State.Finished := by
  cases s with
  | Running => simp [State.to_interest_for] at h
  | BlockedOnRead b =>
      simp only [State.to_interest_for, Option.some.injEq] at h
      split at h <;>
        simp [Interest.readable, Interest.none, Interest.hup] at h
  | BlockedOnWrite b =>
      simp only [State.to_interest_for, Option.some.injEq] at h
      split at h <;>
        simp [Interest.writable, Interest.none, Interest.hup] at h
  | Finished => rfl

theorem reregister_ok_inv (s : Sys) (token : Token) (s1 : Sys)
    (h : Sys.reregister s token = Res.ok s1) : interestInv s1 token := by
  unfold Sys.reregister IOCell.reregister at h
  cases hi : s.coroutine.state.to_interest_for token with
  | none => rw [hi] at h; simp at h
  | some i =>
      rw [hi] at h
      by_cases hr : s.reactor.registered
      · simp only [hr, if_true] at h
        cases h
        left
        exact ⟨rfl, rfl, hi.symm⟩
      · simp only [hr] at h
        simp at h

theorem hup_not_hup_eq_reregister (s : Sys) (token : Token)
    (hi : s.cell.interest ≠ Interest.hup) :
    Sys.hup s token
      = Sys.reregister {s with cell := {s.cell with peer_hup := true}} token := by
  unfold Sys.hup IOCell.hup Sys.reregister
  rw [if_neg hi]

theorem hup_ok_inv (s : Sys) (token : Token) (s1 : Sys)
    (hInv : interestInv s token) (h : Sys.hup s token = Res.ok s1) :
    interestInv s1 token := by
  by_cases hi : s.cell.interest = Interest.hup
  · unfold Sys.hup IOCell.hup at h
    rw [if_pos hi] at h
    by_cases hr : s.reactor.registered
    · simp only [hr, if_true] at h
      cases h
      right
      refine ⟨?_, rfl, rfl⟩
      rcases hInv with ⟨_, hci, hmask⟩ | ⟨_, _, hci⟩
      · exact to_interest_hup_finished _ _ (by rw [← hmask, ← hci, hi])
      · rw [hci] at hi
        exact absurd hi (by decide)
    · simp only [hr] at h
      simp at h
  · rw [hup_not_hup_eq_reregister s token hi] at h
    exact reregister_ok_inv _ token s1 h

/-- Claim C1 counterexample: the unconditional claim fails on a
reachable state — the cell of token 0 still carries its initial
readable|writable registration from wrap_io while the coroutine is
blocked on write on token 1 (the cross-token scenario): writable(0)
returns ok leaving everything unchanged, and the resulting state
violates the claimed mask property (the mask is readable|writable, the
state-derived interest is empty, and the state is not Finished). -/
theorem interest_inv_counterexample :
    ExternalHandle.writable crossSys ⟨0⟩ (fun _ => ResumeOutcome.fail)
        = Res.ok crossSys
    ∧ ¬ interestInv crossSys ⟨0⟩ := by
  refine ⟨rfl, by decide⟩

/-- Claim C1 (amended): the mask property is an invariant preserved by
every ExternalHandle call rather than unconditionally established: if,
when the call begins, the reactor mask for the queried token equals the
one derived from the coroutine state (or the state is Finished with the
hup already processed and the transport deregistered), then the same
holds of the state current when the call returns without panicking. -/
theorem external_calls_preserve_interest_inv
    (s : Sys) (token : Token) (hintHup : Bool)
    (resume : State → ResumeOutcome) (s1 : Sys)
    (hInv : interestInv s token) :
    (ExternalHandle.readable s token hintHup resume = Res.ok s1
        → interestInv s1 token)
    ∧ (ExternalHandle.writable s token resume = Res.ok s1
        → interestInv s1 token) := by
  constructor
  · intro h
    unfold ExternalHandle.readable at h
    cases hintHup with
    | true =>
        rw [if_pos rfl] at h
        exact hup_ok_inv s token s1 hInv h
    | false =>
        rw [if_neg (by simp)] at h
        split at h
        · -- state = BlockedOnRead b
          split at h
          · -- token = b
            split at h
            · -- context handle present: split on the resume outcome
              dsimp only at h
              split at h
              · simp at h
              · exact reregister_ok_inv _ token s1 h
            · simp at h
          · exact reregister_ok_inv _ token s1 h
        · -- state = BlockedOnWrite b
          split at h
          · exact reregister_ok_inv _ token s1 h
          · cases h; exact hInv
        · cases h; exact hInv
  · intro h
    unfold ExternalHandle.writable at h
    split at h
    · -- state = BlockedOnWrite b
      split at h
      · split at h
        · dsimp only at h
          split at h
          · simp at h
          · exact reregister_ok_inv _ token s1 h
        · simp at h
      · cases h; exact hInv
    · -- state = BlockedOnRead b
      split at h
      · exact reregister_ok_inv _ token s1 h
      · cases h; exact hInv
    · cases h; exact hInv

theorem external_calls_preserve_interest_inv_witness :
    interestInv invWitSys ⟨0⟩ :=
  (external_calls_preserve_interest_inv invWitSys ⟨0⟩ false invWitResume invWitSys
    (by decide)).1 (by decide)

/-- Claim C3 counterexample: writable(0) with the coroutine in state
BlockedOnWrite(1) returns with the whole state unchanged — in
particular no reregister is performed, the reactor mask for the cell
stays readable|writable rather than being narrowed to empty, refuting
the claimed symmetry with readable (which does reregister in the
analogous BlockedOnRead non-matching case). -/
theorem writable_nonmatching_counterexample :
    ExternalHandle.writable crossSys ⟨0⟩ (fun _ => ResumeOutcome.fail)
        = Res.ok crossSys
    ∧ crossSys.reactor.mask ≠ Interest.none
    ∧ crossSys.coroutine.state = State.BlockedOnWrite ⟨1⟩ := by
  refine ⟨rfl, by decide, rfl⟩

/-- Claim C3 (amended): when the Coroutine State is BlockedOnWrite(b)
with b not equal to the queried token, writable(token) neither resumes
the coroutine nor reregisters: it returns with the cell, the reactor
registration and the coroutine state all unchanged, for every resume
behaviour. -/
theorem writable_nonmatching_noop (s : Sys) (token bt : Token)
    (resume : State → ResumeOutcome)
    (hst : s.coroutine.state = State.BlockedOnWrite bt) (hne : token ≠ bt) :
    ExternalHandle.writable s token resume = Res.ok s := by
  obtain ⟨⟨st, cob⟩, c, r⟩ := s
  dsimp only at hst
  subst hst
  simp [ExternalHandle.writable, hne]

theorem writable_nonmatching_noop_witness :
    ExternalHandle.writable crossSys ⟨0⟩ (fun _ => ResumeOutcome.fail)
      = Res.ok crossSys :=
  writable_nonmatching_noop crossSys ⟨0⟩ ⟨1⟩ (fun _ => ResumeOutcome.fail)
    rfl (by decide)

/-- Claim C4: each iteration of InternalHandle read performs one
non-blocking attempt; after any number k of would-block outcomes — each
of which records state BlockedOnRead(self.token) and suspends once — a
byte count n is returned as Ok(n), and an error e is returned unchanged
as Err(e); the attempts beyond the returning one are never consumed. -/
theorem internal_read_loop (c : IOCell) (k n e : Nat) (rest : List TryRes) :
    InternalHandle.read c
        (List.replicate k TryRes.wouldBlock ++ TryRes.bytes n :: rest)
      = (some (Except.ok n), List.replicate k (State.BlockedOnRead c.token))
    ∧ InternalHandle.read c
        (List.replicate k TryRes.wouldBlock ++ TryRes.ioErr e :: rest)
      = (some (Except.error e), List.replicate k (State.BlockedOnRead c.token))
      := by
  induction k with
  | zero => exact ⟨rfl, rfl⟩
  | succ k ih =>
      refine ⟨?_, ?_⟩ <;>
        simp [List.replicate_succ, InternalHandle.read, ih.1, ih.2]

/-- Claim C5: IO::hup with current interest exactly hup deregisters the
transport and leaves the cell dormant with interest none; with any other
current interest it sets peer_hup and reregisters, the new interest
being recomputed from the current coroutine state. -/
theorem hup_behavior (co : State) (c : IOCell) (r : Reactor) (token : Token)
    (i : Interest) :
    (c.interest = Interest.hup → r.registered = true →
        IOCell.hup co c r token
          = Res.ok ({c with interest := Interest.none},
                    {r with registered := false}))
    ∧ (c.interest ≠ Interest.hup → r.registered = true →
        co.to_interest_for token = some i →
        IOCell.hup co c r token
          = Res.ok ({c with peer_hup := true, interest := i},
                    {r with mask := i})) := by
  constructor
  · intro h1 h2
    unfold IOCell.hup
    rw [if_pos h1]
    simp [h2]
  · intro h1 h2 h3
    unfold IOCell.hup IOCell.reregister
    rw [if_neg h1]
    dsimp only
    rw [h3]
    simp [h2]

theorem hup_behavior_witness :
    IOCell.hup (State.BlockedOnRead ⟨3⟩) hupWitCell hupWitReactor ⟨3⟩
      = Res.ok ({hupWitCell with peer_hup := true, interest := Interest.readable},
                {hupWitReactor with mask := Interest.readable}) :=
  (hup_behavior (State.BlockedOnRead ⟨3⟩) hupWitCell hupWitReactor ⟨3⟩
    Interest.readable).2 (by decide) rfl (by decide)

/-- Claim C6: in every external-handle path that resumes the coroutine,
the state is set to Running strictly before the resume is invoked, so
the resumed body observes only Running: the outcome of readable and
writable depends on the resume behaviour only through its value at
Running — two resume behaviours agreeing at Running are
indistinguishable. -/
theorem resume_observes_running (s : Sys) (token : Token) (hintHup : Bool)
    (f g : State → ResumeOutcome) (hfg : f State.Running = g State.Running) :
    ExternalHandle.readable s token hintHup f
        = ExternalHandle.readable s token hintHup g
    ∧ ExternalHandle.writable s token f = ExternalHandle.writable s token g := by
  constructor
  · unfold ExternalHandle.readable
    cases hintHup with
    | true => rfl
    | false =>
        rw [if_neg (show ¬(false = true) by simp)]
        dsimp only
        rw [hfg]
        rw [if_neg (show ¬(false = true) by simp)]
  · unfold ExternalHandle.writable
    dsimp only
    rw [hfg]

theorem resume_observes_running_witness :
    ExternalHandle.readable invWitSys ⟨0⟩ false
        (fun _ => ResumeOutcome.ok State.Finished)
      = ExternalHandle.readable invWitSys ⟨0⟩ false obsWitResume :=
  (resume_observes_running invWitSys ⟨0⟩ false
    (fun _ => ResumeOutcome.ok State.Finished) obsWitResume rfl).1

/-- Claim C7: Builder::start spawns a coroutine whose entry procedure
records the context handle into the coroutine record before anything
else (it is recorded even when the body suspends), invokes the body with
exactly the internal-handle list accumulated by wrap_io, and sets the
state to Finished when the body returns; start resumes the fresh
coroutine immediately, so its result is the record after the first
suspension or completion.  wrap_io itself appends the new handle. -/
theorem builder_start_runs_body (b : Builder) (f : List Token → BodyStep) :
    (Builder.start b f).coroutine = true
    ∧ (f b.handles = BodyStep.returns →
        Builder.start b f = {state := State.Finished, coroutine := true})
    ∧ (∀ st, f b.handles = BodyStep.yields st →
        Builder.start b f = {state := st, coroutine := true})
    ∧ ∀ t, (Builder.wrap_io b t).1.handles = b.handles ++ [t] := by
  refine ⟨?_, ?_, ?_, fun t => rfl⟩
  · unfold Builder.start coroutineEntry
    cases hf : f b.handles with
    | yields st => rfl
    | returns => rfl
  · intro hre
    unfold Builder.start coroutineEntry
    rw [hre]
  · intro st hy
    unfold Builder.start coroutineEntry
    rw [hy]

theorem builder_start_runs_body_witness :
    Builder.start startWitBuilder (fun _ => BodyStep.returns)
      = {state := State.Finished, coroutine := true} :=
  (builder_start_runs_body startWitBuilder (fun _ => BodyStep.returns)).2.1 rfl

/-- Claim C8 counterexample: when the resume fails, the handler panics
(the expect on the resume result fires) and the coroutine state at that
point is Running — the state was set to Running just before the resume
attempt and is never forced to Finished. -/
theorem resume_failure_counterexample :
    ExternalHandle.readable failSys ⟨0⟩ false (fun _ => ResumeOutcome.fail)
      = Res.panic
          {failSys with coroutine := {failSys.coroutine with state := State.Running}}
    ∧ ({failSys with coroutine :=
          {failSys.coroutine with state := State.Running}}).coroutine.state
        ≠ State.Finished := by
  refine ⟨rfl, by decide⟩

/-- Claim C8 (amended): a resume failure is fatal, but not by forcing
the state to Finished: the external handle panics on the failed resume,
and the coroutine state — written to Running immediately before the
resume was attempted — is left at Running, in both the readable and the
writable resume paths. -/
theorem resume_failure_panics (s : Sys) (token : Token)
    (f : State → ResumeOutcome) (hco : s.coroutine.coroutine = true)
    (hf : f State.Running = ResumeOutcome.fail) :
    (s.coroutine.state = State.BlockedOnRead token →
        ExternalHandle.readable s token false f
          = Res.panic
              {s with coroutine := {s.coroutine with state := State.Running}})
    ∧ (s.coroutine.state = State.BlockedOnWrite token →
        ExternalHandle.writable s token f
          = Res.panic
              {s with coroutine := {s.coroutine with state := State.Running}}) := by
  obtain ⟨⟨st, cob⟩, c, r⟩ := s
  dsimp only at hco
  subst hco
  constructor
  · intro hst
    dsimp only at hst
    subst hst
    simp [ExternalHandle.readable, hf]
  · intro hst
    dsimp only at hst
    subst hst
    simp [ExternalHandle.writable, hf]

theorem resume_failure_panics_witness :
    ExternalHandle.readable failSys ⟨0⟩ false (fun _ => ResumeOutcome.fail)
      = Res.panic
          {failSys with coroutine :=
            {failSys.coroutine with state := State.Running}} :=
  (resume_failure_panics failSys ⟨0⟩ (fun _ => ResumeOutcome.fail) rfl rfl).1 rfl

theorem reregister_ok_registered (s : Sys) (token : Token) (s1 : Sys)
    (h : Sys.reregister s token = Res.ok s1) : s.reactor.registered = true := by
  unfold Sys.reregister IOCell.reregister at h
  cases hi : s.coroutine.state.to_interest_for token with
  | none => rw [hi] at h; simp at h
  | some i =>
      rw [hi] at h
      by_cases hr : s.reactor.registered
      · exact hr
      · simp only [hr] at h
        simp at h

theorem finished_deregistered_step (op : Op) (s s1 : Sys)
    (hfin : ExternalHandle.is_finished s = true)
    (hreg : s.reactor.registered = false)
    (h : runOp op s = Res.ok s1) : s1 = s := by
  have hstate := of_decide_eq_true hfin
  obtain ⟨hst, hint⟩ := hstate
  cases op with
  | readable t hint2 f =>
      replace h : ExternalHandle.readable s t hint2 f = Res.ok s1 := h
      unfold ExternalHandle.readable at h
      cases hint2 with
      | true =>
          rw [if_pos rfl] at h
          rw [hup_not_hup_eq_reregister s t (by rw [hint]; decide)] at h
          have := reregister_ok_registered _ t s1 h
          rw [hreg] at this
          simp at this
      | false =>
          rw [if_neg (show ¬(false = true) by simp)] at h
          split at h
          · next b heq => rw [hst] at heq; simp at heq
          · next b heq => rw [hst] at heq; simp at heq
          · cases h; rfl
  | writable t f =>
      replace h : ExternalHandle.writable s t f = Res.ok s1 := h
      unfold ExternalHandle.writable at h
      split at h
      · next b heq => rw [hst] at heq; simp at heq
      · next b heq => rw [hst] at heq; simp at heq
      · cases h; rfl

/-- Claim C9 counterexample: unconditional monotonicity fails on a
reachable state — a body that finishes without ever yielding leaves the
cell's interest at its wrap_io-initial none with the transport still
registered, so is_finished already returns true; the next hup event
takes the else branch of IO::hup (interest is not hup), reregisters the
cell to the Finished-derived interest hup, and is_finished returns
false afterwards. -/
theorem is_finished_flip_counterexample :
    ExternalHandle.is_finished earlyFinishSys = true
    ∧ ExternalHandle.readable earlyFinishSys ⟨0⟩ true (fun _ => ResumeOutcome.fail)
        = Res.ok {earlyFinishSys with
            cell := {earlyFinishSys.cell with
                      interest := Interest.hup, peer_hup := true},
            reactor := {earlyFinishSys.reactor with mask := Interest.hup}}
    ∧ ExternalHandle.is_finished {earlyFinishSys with
            cell := {earlyFinishSys.cell with
                      interest := Interest.hup, peer_hup := true},
            reactor := {earlyFinishSys.reactor with mask := Interest.hup}}
        = false := by
  refine ⟨rfl, rfl, rfl⟩

/-- Claim C9 (amended): is_finished is monotonic once the transport has
also been deregistered: from any state where is_finished returns true
and the reactor registration is gone, every event-loop dispatch that
returns leaves the state unchanged, so every later is_finished call on
this handle or any clone still returns true.  (Before deregistration a
finished coroutine with the wrap_io-initial empty interest can flip
is_finished back to false at the next hup.) -/
theorem is_finished_monotonic (ops : List Op) :
    ∀ s s1 : Sys, ExternalHandle.is_finished s = true →
      s.reactor.registered = false →
      runOps ops s = Res.ok s1 →
      ExternalHandle.is_finished s1 = true := by
  induction ops with
  | nil =>
      intro s s1 hfin hreg h
      unfold runOps at h
      cases h
      exact hfin
  | cons op ops ih =>
      intro s s1 hfin hreg h
      unfold runOps at h
      cases hstep : runOp op s with
      | ok s2 =>
          rw [hstep] at h
          have he := finished_deregistered_step op s s2 hfin hreg hstep
          subst he
          exact ih _ _ hfin hreg h
      | panic s2 =>
          rw [hstep] at h
          simp at h

theorem is_finished_monotonic_witness :
    ExternalHandle.is_finished doneSys = true :=
  is_finished_monotonic
    [Op.readable ⟨0⟩ false (fun _ => ResumeOutcome.fail),
     Op.writable ⟨0⟩ (fun _ => ResumeOutcome.fail)]
    doneSys doneSys (by decide) rfl rfl

theorem reregister_erasePH (s : Sys) (b : Bool) (token : Token) :
    Res.erasePH (Sys.reregister {s with cell := IOCell.setPH b s.cell} token)
      = Res.erasePH (Sys.reregister s token) := by
  unfold Sys.reregister IOCell.reregister IOCell.setPH
  dsimp only
  cases s.coroutine.state.to_interest_for token with
  | none => rfl
  | some i =>
      by_cases hr : s.reactor.registered <;>
        simp [hr, Res.erasePH]

theorem hup_erasePH (s : Sys) (b : Bool) (token : Token) :
    Res.erasePH (Sys.hup {s with cell := IOCell.setPH b s.cell} token)
      = Res.erasePH (Sys.hup s token) := by
  by_cases hi : s.cell.interest = Interest.hup
  · unfold Sys.hup IOCell.hup IOCell.setPH
    dsimp only
    rw [if_pos hi]
    by_cases hr : s.reactor.registered <;>
      simp [hr, hi, Res.erasePH]
  · rw [hup_not_hup_eq_reregister {s with cell := IOCell.setPH b s.cell} token
        (by dsimp only [IOCell.setPH]; exact hi)]
    rw [hup_not_hup_eq_reregister s token hi]
    rfl

theorem readable_erasePH (s : Sys) (b : Bool) (token : Token) (hintHup : Bool)
    (f : State → ResumeOutcome) :
    Res.erasePH (ExternalHandle.readable (Sys.setPH b s) token hintHup f)
      = Res.erasePH (ExternalHandle.readable s token hintHup f) := by
  obtain ⟨⟨st, cob⟩, c, r⟩ := s
  cases hintHup with
  | true => exact hup_erasePH ⟨⟨st, cob⟩, c, r⟩ b token
  | false =>
      cases st with
      | Running => rfl
      | Finished => rfl
      | BlockedOnRead bt =>
          by_cases ht : token = bt
          · cases cob with
            | false =>
                simp [ExternalHandle.readable, Sys.setPH, IOCell.setPH, ht,
                  Res.erasePH]
            | true =>
                cases hres : f State.Running with
                | fail =>
                    simp [ExternalHandle.readable, Sys.setPH, IOCell.setPH, ht,
                      hres, Res.erasePH]
                | ok st2 =>
                    simp only [ExternalHandle.readable, Sys.setPH, IOCell.setPH,
                      ht, hres, if_true, if_pos,
                      if_neg (show ¬(false = true) by simp)]
                    exact reregister_erasePH ⟨⟨st2, true⟩, c, r⟩ b bt
          · simp only [ExternalHandle.readable, Sys.setPH, IOCell.setPH,
              if_neg ht]
            exact reregister_erasePH ⟨⟨State.BlockedOnRead bt, cob⟩, c, r⟩ b token
      | BlockedOnWrite bt =>
          by_cases ht : token = bt
          · simp only [ExternalHandle.readable, Sys.setPH, IOCell.setPH,
              if_pos ht]
            exact reregister_erasePH ⟨⟨State.BlockedOnWrite bt, cob⟩, c, r⟩ b token
          · simp [ExternalHandle.readable, Sys.setPH, IOCell.setPH, if_neg ht,
              Res.erasePH]

theorem writable_erasePH (s : Sys) (b : Bool) (token : Token)
    (f : State → ResumeOutcome) :
    Res.erasePH (ExternalHandle.writable (Sys.setPH b s) token f)
      = Res.erasePH (ExternalHandle.writable s token f) := by
  obtain ⟨⟨st, cob⟩, c, r⟩ := s
  cases st with
  | Running => rfl
  | Finished => rfl
  | BlockedOnWrite bt =>
      by_cases ht : token = bt
      · cases cob with
        | false =>
            simp [ExternalHandle.writable, Sys.setPH, IOCell.setPH, ht,
              Res.erasePH]
        | true =>
            cases hres : f State.Running with
            | fail =>
                simp [ExternalHandle.writable, Sys.setPH, IOCell.setPH, ht,
                  hres, Res.erasePH]
            | ok st2 =>
                simp only [ExternalHandle.writable, Sys.setPH, IOCell.setPH,
                  ht, hres, if_true, if_pos]
                exact reregister_erasePH ⟨⟨st2, true⟩, c, r⟩ b bt
      · simp [ExternalHandle.writable, Sys.setPH, IOCell.setPH, if_neg ht,
          Res.erasePH]
  | BlockedOnRead bt =>
      by_cases ht : token = bt
      · simp only [ExternalHandle.writable, Sys.setPH, IOCell.setPH,
          if_pos ht]
        exact reregister_erasePH ⟨⟨State.BlockedOnRead bt, cob⟩, c, r⟩ b token
      · simp [ExternalHandle.writable, Sys.setPH, IOCell.setPH, if_neg ht,
          Res.erasePH]

theorem internal_read_setPH (c : IOCell) (a : Bool) (atts : List TryRes) :
    InternalHandle.read (IOCell.setPH a c) atts = InternalHandle.read c atts := by
  induction atts with
  | nil => rfl
  | cons t rest ih =>
      simp only [IOCell.setPH] at ih
      cases t <;> simp [InternalHandle.read, IOCell.setPH, ih]

theorem internal_write_setPH (c : IOCell) (a : Bool) (atts : List TryRes) :
    InternalHandle.write (IOCell.setPH a c) atts = InternalHandle.write c atts := by
  induction atts with
  | nil => rfl
  | cons t rest ih =>
      simp only [IOCell.setPH] at ih
      cases t <;> simp [InternalHandle.write, IOCell.setPH, ih]

/-- Claim C10: peer_hup is write-only.  Two executions of any public
operation from states that differ only in the peer_hup flag produce
identical results and identical changes to all other state: external
readable and writable agree up to the flag itself, is_finished returns
the same Boolean, and the internal read and write loops are untouched by
the flag. -/
theorem peer_hup_write_only (s : Sys) (b : Bool) :
    (∀ token hintHup f,
        Res.erasePH (ExternalHandle.readable (Sys.setPH b s) token hintHup f)
          = Res.erasePH (ExternalHandle.readable s token hintHup f))
    ∧ (∀ token f,
        Res.erasePH (ExternalHandle.writable (Sys.setPH b s) token f)
          = Res.erasePH (ExternalHandle.writable s token f))
    ∧ ExternalHandle.is_finished (Sys.setPH b s) = ExternalHandle.is_finished s
    ∧ (∀ c a atts, InternalHandle.read (IOCell.setPH a c) atts
          = InternalHandle.read c atts)
    ∧ (∀ c a atts, InternalHandle.write (IOCell.setPH a c) atts
          = InternalHandle.write c atts) :=
  ⟨fun token hintHup f => readable_erasePH s b token hintHup f,
   fun token f => writable_erasePH s b token f,
   rfl,
   fun c a atts => internal_read_setPH c a atts,
   fun c a atts => internal_write_setPH c a atts⟩
